import Mathlib

/-!
Verification development for the disclaude repository's core components:
the personality engine (src/personality.py), the reminder scheduler
(src/scheduler.py) and the natural-language time parser (src/time_parser.py).

Python strings are modelled as `List Char`; `str.lower` is modelled as the
character-wise `Char.toLower` (the keyword tables in the source are ASCII).
`datetime` values are modelled as abstract `Nat` timestamps; the external
`dateparser` library is modelled as an arbitrary function
`List Char → Option Nat` passed as a parameter.
-/

namespace Disclaude

/-- Python ASCII whitespace, as used by `str.split()`, `str.strip()` and the
regex class backslash-s. -/
def isPySpace (c : Char) : Bool :=
  c == ' ' || c == '\t' || c == '\n' || c == '\r' || c == '\x0b' || c == '\x0c'

/-- Character-wise lowercasing, modelling Python `str.lower()`. -/
def lowerL (l : List Char) : List Char := l.map Char.toLower

/-- Boolean test that `needle` occurs at the start of `hay`. -/
def isPrefixL : List Char → List Char → Bool
  | [], _ => true
  | _ :: _, [] => false
  | a :: as, b :: bs => a == b && isPrefixL as bs

/-- Boolean substring containment, modelling Python `needle in hay`. -/
def containsSub (needle : List Char) : List Char → Bool
  | [] => isPrefixL needle []
  | l@(_ :: rest) => isPrefixL needle l || containsSub needle rest

/-- Index of the leftmost occurrence of `needle`, modelling Python
`str.find` restricted to the found case. -/
def findSubIdx (needle : List Char) : List Char → Option Nat
  | [] => if isPrefixL needle [] then some 0 else none
  | l@(_ :: rest) =>
    if isPrefixL needle l then some 0
    else (findSubIdx needle rest).map (· + 1)

/-- Helper for `splitWs`: accumulates the current word (reversed). -/
def splitWsAux : List Char → List Char → List (List Char)
  | acc, [] => if acc.isEmpty then [] else [acc.reverse]
  | acc, c :: rest =>
    if isPySpace c then
      if acc.isEmpty then splitWsAux [] rest
      else acc.reverse :: splitWsAux [] rest
    else splitWsAux (c :: acc) rest

/-- Whitespace splitting with empty fields discarded, modelling Python
`str.split()` with no arguments. -/
def splitWs (l : List Char) : List (List Char) := splitWsAux [] l

/-- Counter bump in an insertion-ordered association list, modelling
`defaultdict(int)`'s `d[k] += 1` (a fresh key is appended at the end). -/
def bumpAssoc {α : Type} [BEq α] (k : α) : List (α × Nat) → List (α × Nat)
  | [] => [(k, 1)]
  | (k', v) :: rest =>
    if k' == k then (k', v + 1) :: rest else (k', v) :: bumpAssoc k rest

/-- Lookup with default 0 in a counter association list, modelling
`defaultdict(int)` reads. -/
def lookupD {α : Type} [BEq α] (l : List (α × Nat)) (k : α) : Nat :=
  match l.find? (fun p => p.1 == k) with
  | some p => p.2
  | none => 0

/-! ### Personality engine (src/personality.py) -/

/-- The five trait names of `PersonalityTracker.personality_traits`. -/
inductive Trait
  | friendliness
  | formality
  | humor
  | verbosity
  | helpfulness
deriving DecidableEq, Repr

/-- The `personality_traits` dictionary: one natural number per trait name. -/
structure Traits where
  friendliness : Nat
  formality : Nat
  humor : Nat
  verbosity : Nat
  helpfulness : Nat
deriving DecidableEq, Repr

/-- Read one trait value out of a `Traits` record. -/
def Traits.get : Traits → Trait → Nat
  | t, .friendliness => t.friendliness
  | t, .formality => t.formality
  | t, .humor => t.humor
  | t, .verbosity => t.verbosity
  | t, .helpfulness => t.helpfulness

/-- Construction-time defaults from `PersonalityTracker.__init__`. -/
def initTraits : Traits :=
  { friendliness := 50, formality := 50, humor := 50, verbosity := 50, helpfulness := 70 }

/-- Clamped trait arithmetic from `PersonalityTracker._adjust_trait`:
`max(0, min(100, value + amount))`. -/
def clampAdjust (v : Nat) (amount : Int) : Nat :=
  (max 0 (min 100 ((v : Int) + amount))).toNat

/-- Apply `_adjust_trait` to one named trait (all five names are present in
the dictionary, so the `if trait in self.personality_traits` guard in the
source always passes for the names used by `record_interaction`). -/
def adjustTrait (ts : Traits) (t : Trait) (amount : Int) : Traits :=
  match t with
  | .friendliness => { ts with friendliness := clampAdjust ts.friendliness amount }
  | .formality => { ts with formality := clampAdjust ts.formality amount }
  | .humor => { ts with humor := clampAdjust ts.humor amount }
  | .verbosity => { ts with verbosity := clampAdjust ts.verbosity amount }
  | .helpfulness => { ts with helpfulness := clampAdjust ts.helpfulness amount }

/-- The mutable state of `PersonalityTracker`. Timestamps are abstract `Nat`
values supplied by the caller in place of `datetime.now()`. -/
structure PersonalityTracker where
  interaction_count : Nat
  topics : List (String × Nat)
  user_interactions : List (Nat × Nat)
  personality_traits : Traits
  start_time : Nat
  last_personality_shift : Nat
deriving DecidableEq, Repr

/-- A freshly constructed tracker (`PersonalityTracker.__init__`), with `t0`
standing for the two `datetime.now()` reads. -/
def PersonalityTracker.init (t0 : Nat) : PersonalityTracker :=
  { interaction_count := 0, topics := [], user_interactions := [],
    personality_traits := initTraits, start_time := t0, last_personality_shift := t0 }

/-- Keyword table for the coding topic in `record_interaction`. -/
def codingWords : List String := ["code", "program", "function", "bug", "error"]

/-- Keyword table for the polite topic in `record_interaction`. -/
def politeWords : List String := ["help", "please", "thanks", "thank you"]

/-- Keyword table for the humor topic in `record_interaction`. -/
def humorWords : List String := ["lol", "haha", "funny", "😂", "🤣"]

/-- Keyword table for the detailed topic in `record_interaction`. -/
def detailWords : List String := ["explain", "detail", "elaborate", "more"]

/-- Keyword table for the brief topic in `record_interaction`. -/
def briefWords : List String := ["quick", "brief", "short", "tldr"]

/-- Models `any(word in content_lower for word in words)`. -/
def containsAnyWord (ws : List String) (l : List Char) : Bool :=
  ws.any (fun w => containsSub w.data l)

/-- One keyword block of `record_interaction`: when any of the words occurs
in the lowercased content, bump the block's topic counter and apply the
block's trait adjustments. -/
def topicStep (name : String) (adj : Traits → Traits) (ws : List String) (cl : List Char)
    (s : PersonalityTracker) : PersonalityTracker :=
  if containsAnyWord ws cl then
    { s with topics := bumpAssoc name s.topics,
             personality_traits := adj s.personality_traits }
  else s

/-- The body of `record_interaction` before the every-10th-call check:
counter increments and the five keyword blocks, in source order (the trait
deltas of each block are those of src/personality.py lines 33-54). -/
def recordCore (s : PersonalityTracker) (user_id : Nat) (content : List Char) :
    PersonalityTracker :=
  let s1 := { s with interaction_count := s.interaction_count + 1,
                     user_interactions := bumpAssoc user_id s.user_interactions }
  let cl := lowerL content
  let s2 := topicStep "coding"
    (fun ts => adjustTrait (adjustTrait ts .formality 5) .verbosity (-3)) codingWords cl s1
  let s3 := topicStep "polite" (fun ts => adjustTrait ts .friendliness 3) politeWords cl s2
  let s4 := topicStep "humor"
    (fun ts => adjustTrait (adjustTrait ts .humor 5) .formality (-5)) humorWords cl s3
  let s5 := topicStep "detailed"
    (fun ts => adjustTrait (adjustTrait ts .verbosity 5) .helpfulness 3) detailWords cl s4
  topicStep "brief" (fun ts => adjustTrait ts .verbosity (-5)) briefWords cl s5

/-- The per-trait rule inside `_natural_evolution`: the branch condition reads
the trait's value before its own (clamped) adjustment. -/
def evolveVal (v : Nat) : Nat :=
  if v > 60 then clampAdjust v (-1)
  else if v < 40 then clampAdjust v 1
  else v

/-- Models `_natural_evolution`: every trait is updated by `evolveVal`
(each trait's branch depends only on that trait's own prior value), and
`last_personality_shift` is set to the current time. -/
def naturalEvolution (s : PersonalityTracker) (tNow : Nat) : PersonalityTracker :=
  let ts :=
    { friendliness := evolveVal s.personality_traits.friendliness,
      formality := evolveVal s.personality_traits.formality,
      humor := evolveVal s.personality_traits.humor,
      verbosity := evolveVal s.personality_traits.verbosity,
      helpfulness := evolveVal s.personality_traits.helpfulness : Traits }
  { s with personality_traits := ts, last_personality_shift := tNow }

/-- Models `record_interaction`: the core updates, then the natural-evolution
pass exactly when the incremented counter is divisible by 10. The
`is_question` parameter is accepted and unused, as in the source. -/
def recordInteraction (s : PersonalityTracker) (user_id : Nat) (content : List Char)
    (_is_question : Bool) (tNow : Nat) : PersonalityTracker :=
  let s' := recordCore s user_id content
  if s'.interaction_count % 10 = 0 then naturalEvolution s' tNow else s'

/-- One observed call: `(user_id, content, is_question)`. -/
abbrev Call := Nat × List Char × Bool

/-- Fold a list of calls through `recordInteraction`; the time of the i-th
call is `tf i`, modelling the successive `datetime.now()` reads. -/
def runCallsT (tf : Nat → Nat) : PersonalityTracker → Nat → List Call → PersonalityTracker
  | s, _, [] => s
  | s, i, (uid, content, q) :: rest =>
    runCallsT tf (recordInteraction s uid content q (tf i)) (i + 1) rest

/-- Models Python `max(items, key=lambda x: x[1])[0]` over a non-empty
iteration: the first key among those of maximal count wins ties. -/
def topTopicAux (bk : String) (bv : Nat) : List (String × Nat) → String
  | [] => bk
  | (k, v) :: rest => if v > bv then topTopicAux k v rest else topTopicAux bk bv rest

/-- The `top_topic` computation in `get_system_prompt`, `none` when the topic
dictionary is empty. -/
def topTopic : List (String × Nat) → Option String
  | [] => none
  | (k, v) :: rest => some (topTopicAux k v rest)

/-- Models `PersonalityTracker.get_system_prompt`. -/
def getSystemPrompt (s : PersonalityTracker) : String :=
  let t := s.personality_traits
  let p1 : List String :=
    ["You are DisClaude, a helpful Discord assistant powered by Claude AI."]
  let p2 := p1 ++
    [if t.friendliness > 70 then
        "You are warm, enthusiastic, and use friendly emojis occasionally."
      else if t.friendliness > 40 then "You are friendly and approachable."
      else "You are professional and direct."]
  let p3 := p2 ++
    (if t.formality > 70 then ["You communicate formally and professionally."]
      else if t.formality < 30 then ["You use casual language and can be playful."]
      else [])
  let p4 := p3 ++
    (if t.humor > 70 then ["You enjoy witty remarks and occasional jokes."]
      else if t.humor > 40 then ["You can make light jokes when appropriate."]
      else [])
  let p5 := p4 ++
    (if t.verbosity > 70 then ["You provide detailed, comprehensive explanations."]
      else if t.verbosity < 30 then ["You keep responses concise and to the point."]
      else [])
  let p6 := p5 ++
    (if t.helpfulness > 80 then
        ["You go above and beyond to help users, offering examples and alternatives."]
      else if t.helpfulness > 50 then ["You are helpful and thorough in your responses."]
      else [])
  let p7 := p6 ++
    (if s.interaction_count > 100 then
        ["You've had " ++ toString s.interaction_count ++
          " conversations and have developed a mature, experienced tone."]
      else if s.interaction_count > 20 then ["You're becoming familiar with the community."]
      else [])
  let p8 := p7 ++
    (match topTopic s.topics with
      | some top =>
        if top == "coding" && lookupD s.topics top > 10 then
          ["You're particularly knowledgeable about programming."]
        else if top == "humor" && lookupD s.topics top > 10 then
          ["You've noticed this community enjoys humor."]
        else []
      | none => [])
  String.intercalate " " p8

/-- The dictionary produced by `to_dict` and consumed by `from_dict`. Every
field is optional because `from_dict` reads each key with `data.get`; the
`start_time` field holds the `isoformat` image of the timestamp, of an
abstract type `S`. -/
structure TrackerDict (S : Type) where
  interaction_count : Option Nat
  topics : Option (List (String × Nat))
  user_interactions : Option (List (Nat × Nat))
  personality_traits : Option Traits
  start_time : Option S

/-- Models `PersonalityTracker.to_dict`; `iso` stands for
`datetime.isoformat`, treated as an external serialization function. -/
def PersonalityTracker.toDict {S : Type} (iso : Nat → S) (t : PersonalityTracker) :
    TrackerDict S :=
  { interaction_count := some t.interaction_count,
    topics := some t.topics,
    user_interactions := some t.user_interactions,
    personality_traits := some t.personality_traits,
    start_time := some (iso t.start_time) }

/-- Models `PersonalityTracker.from_dict`; it first builds a fresh tracker
(`cls()`, with `t0` for its `datetime.now()` reads) and then overwrites each
field from the dictionary with the source's `data.get` defaults. `fromIso`
stands for `datetime.fromisoformat`. -/
def PersonalityTracker.fromDict {S : Type} (fromIso : S → Nat) (t0 : Nat)
    (d : TrackerDict S) : PersonalityTracker :=
  let tracker := PersonalityTracker.init t0
  { interaction_count := d.interaction_count.getD 0,
    topics := d.topics.getD [],
    user_interactions := d.user_interactions.getD [],
    personality_traits := d.personality_traits.getD tracker.personality_traits,
    start_time :=
      match d.start_time with
      | some s => fromIso s
      | none => tracker.start_time,
    last_personality_shift := tracker.last_personality_shift }

/-! ### Reminder scheduler (src/scheduler.py)

The `SmartScheduler` keeps its own `scheduled_tasks` dictionary next to the
underlying APScheduler job store. The job store is modelled as the list of
ids of currently registered jobs: `add_job` registers an id, a one-shot
`DateTrigger` job is retired from the store when it fires (whether or not
the job coroutine raises), and `remove_job` on an id that is not registered
raises (modelled as the `false` branch of `cancel_task`'s `except`). The
delivery callback `send_function` is modelled by a boolean `deliverOk`
telling whether the awaited call returns or raises. -/

/-- One entry of `scheduled_tasks` (the `'job'` handle is represented by the
id's membership in the job store). -/
structure TaskInfo where
  id : String
  fireAt : Nat
  channel_id : Nat
  user_id : Nat
  message : String
  original_message : Option String
deriving DecidableEq, Repr

/-- The scheduler state: the `scheduled_tasks` dict (insertion-ordered
association list), the underlying job store, and `task_counter`. -/
structure SmartScheduler where
  scheduled_tasks : List (String × TaskInfo)
  jobs : List String
  task_counter : Nat
deriving DecidableEq, Repr

/-- A freshly constructed scheduler. -/
def SmartScheduler.init : SmartScheduler :=
  { scheduled_tasks := [], jobs := [], task_counter := 0 }

/-- Models `task_id in self.scheduled_tasks`. -/
def hasKey (l : List (String × TaskInfo)) (k : String) : Bool :=
  l.any (fun p => p.1 == k)

/-- Models `del self.scheduled_tasks[task_id]`. -/
def delKey (l : List (String × TaskInfo)) (k : String) : List (String × TaskInfo) :=
  l.filter (fun p => !(p.1 == k))

/-- Membership of a job id in the underlying job store. -/
def hasJob (jobs : List String) (k : String) : Bool :=
  jobs.any (fun j => j == k)

/-- Retirement of a job id from the underlying job store. -/
def removeJob (jobs : List String) (k : String) : List String :=
  jobs.filter (fun j => !(j == k))

/-- Models `SmartScheduler.schedule_reminder`: bump the counter, build the
`"reminder_{n}"` id, register the job and store the task record. Returns the
new state and the task id. -/
def scheduleReminder (s : SmartScheduler) (fireAt channel_id user_id : Nat)
    (message : String) (original_message : Option String) : SmartScheduler × String :=
  let counter := s.task_counter + 1
  let task_id := "reminder_" ++ toString counter
  let info : TaskInfo :=
    { id := task_id, fireAt := fireAt, channel_id := channel_id, user_id := user_id,
      message := message, original_message := original_message }
  ({ scheduled_tasks := s.scheduled_tasks ++ [(task_id, info)],
     jobs := s.jobs ++ [task_id],
     task_counter := counter }, task_id)

/-- Models the firing of the inner `send_reminder` coroutine for `task_id`.
The one-shot job is retired from the job store by the job facility in either
case. If `await send_function(...)` returns (`deliverOk = true`), the
following lines delete the task from `scheduled_tasks`; if it raises
(`deliverOk = false`), the exception propagates out of `send_reminder`
before the deletion is reached, so `scheduled_tasks` is left unchanged. -/
def fireTask (s : SmartScheduler) (task_id : String) (deliverOk : Bool) : SmartScheduler :=
  let s := { s with jobs := removeJob s.jobs task_id }
  if deliverOk then
    { s with scheduled_tasks :=
        if hasKey s.scheduled_tasks task_id then delKey s.scheduled_tasks task_id
        else s.scheduled_tasks }
  else s

/-- Models `SmartScheduler.cancel_task`: if the id is in `scheduled_tasks`,
try `scheduler.remove_job` — which raises when the job is no longer in the
job store, in which case the `except` branch returns `false` without
touching `scheduled_tasks`; on success delete the task and return `true`.
Unknown ids return `false`. -/
def cancelTask (s : SmartScheduler) (task_id : String) : SmartScheduler × Bool :=
  if hasKey s.scheduled_tasks task_id then
    if hasJob s.jobs task_id then
      ({ s with jobs := removeJob s.jobs task_id,
                scheduled_tasks := delKey s.scheduled_tasks task_id }, true)
    else (s, false)
  else (s, false)

/-! ### Natural-language time parser (src/time_parser.py)

The five `reminder_patterns` regular expressions are embedded as dedicated
matchers over `List Char`. Literal comparison is case-insensitive
(`Char.toLower` on the subject character), which coincides with plain
matching on the already-lowercased subjects used by
`parse_time_from_message` and implements the `re.IGNORECASE` flag used by
`_extract_reminder_content`. A matcher returns the length of the match at
the current position together with the captured groups; `re.search`'s
leftmost-match semantics is obtained by trying every start position from
the left. None of the five patterns can match the empty string. -/

/-- Captured groups of one pattern match: the first three patterns have an
amount group and a unit group, the last two a single group. -/
inductive PGroups
  | two (amount : List Char) (unit : List Char)
  | one (g : List Char)
deriving DecidableEq, Repr

/-- Consume a literal (given lowercase) case-insensitively, returning the
rest of the subject. -/
def matchLitCI : List Char → List Char → Option (List Char)
  | [], l => some l
  | _ :: _, [] => none
  | p :: ps, c :: cs => if c.toLower == p then matchLitCI ps cs else none

/-- First alternative (in order) that matches at the current position;
returns the consumed subject slice and the rest. -/
def matchAlt : List (List Char) → List Char → Option (List Char × List Char)
  | [], _ => none
  | a :: as, l =>
    match matchLitCI a l with
    | some r => some (l.take (l.length - r.length), r)
    | none => matchAlt as l

/-- Greedy span of decimal digits, for the regex atom backslash-d-plus. -/
def spanDigits : List Char → List Char × List Char
  | [] => ([], [])
  | c :: cs =>
    if c.isDigit then
      let (ds, r) := spanDigits cs
      (c :: ds, r)
    else ([], c :: cs)

/-- Greedy match of at most two decimal digits. -/
def takeUpTo2Digits : List Char → List Char × List Char
  | [] => ([], [])
  | c :: cs =>
    if c.isDigit then
      match cs with
      | c2 :: cs2 => if c2.isDigit then ([c, c2], cs2) else ([c], cs)
      | [] => ([c], [])
    else ([], c :: cs)

/-- The time-unit alternation `(minute|hour|day|week)`. -/
def unitWords : List (List Char) := ["minute".data, "hour".data, "day".data, "week".data]

/-- Shared tail of the first two patterns: digits, a space, a unit and an
optional trailing `s`; nothing follows, so the greedy optional `s` needs no
backtracking. `l0` is the subject at the pattern's start position, used to
compute the match length. -/
def matchAmountUnitTail (l0 r : List Char) : Option (Nat × PGroups) :=
  let (ds, r1) := spanDigits r
  if ds.isEmpty then none
  else
    match matchLitCI " ".data r1 with
    | none => none
    | some r2 =>
      match matchAlt unitWords r2 with
      | none => none
      | some (u, r3) =>
        let r4 :=
          match r3 with
          | c :: cs => if c.toLower == 's' then cs else c :: cs
          | [] => []
        some (l0.length - r4.length, PGroups.two ds u)

/-- Pattern `remind me (?:in )?(\d+) (minute|hour|day|week)s?` at the
current position; the optional `in ` is tried greedily first, with
backtracking. -/
def matchPat1 (l : List Char) : Option (Nat × PGroups) :=
  match matchLitCI "remind me ".data l with
  | none => none
  | some r =>
    match matchLitCI "in ".data r with
    | some r2 =>
      match matchAmountUnitTail l r2 with
      | some res => some res
      | none => matchAmountUnitTail l r
    | none => matchAmountUnitTail l r

/-- Pattern `in (\d+) (minute|hour|day|week)s?` at the current position. -/
def matchPat2 (l : List Char) : Option (Nat × PGroups) :=
  match matchLitCI "in ".data l with
  | none => none
  | some r => matchAmountUnitTail l r

/-- Pattern `(\d+) (minute|hour|day|week)s? from now` at the current
position; the optional `s` is tried greedily with backtracking against the
following literal. -/
def matchPat3 (l : List Char) : Option (Nat × PGroups) :=
  let (ds, r1) := spanDigits l
  if ds.isEmpty then none
  else
    match matchLitCI " ".data r1 with
    | none => none
    | some r2 =>
      match matchAlt unitWords r2 with
      | none => none
      | some (u, r3) =>
        let rest :=
          match r3 with
          | c :: cs =>
            if c.toLower == 's' then
              match matchLitCI " from now".data cs with
              | some r4 => some r4
              | none => matchLitCI " from now".data (c :: cs)
            else matchLitCI " from now".data (c :: cs)
          | [] => none
        match rest with
        | some r4 => some (l.length - r4.length, PGroups.two ds u)
        | none => none

/-- The bare-keyword alternation `(tomorrow|tonight|next week|next month)`. -/
def bareKeywordAlts : List (List Char) :=
  ["tomorrow".data, "tonight".data, "next week".data, "next month".data]

/-- Pattern `(tomorrow|tonight|next week|next month)` at the current
position. -/
def matchPat4 (l : List Char) : Option (Nat × PGroups) :=
  match matchAlt bareKeywordAlts l with
  | some (k, r) => some (l.length - r.length, PGroups.one k)
  | none => none

/-- The meridiem alternation `(?:am|pm|AM|PM)` (case-insensitive matching
subsumes the four spellings). -/
def ampmAlts : List (List Char) := ["am".data, "pm".data]

/-- Pattern `at (\d{1,2}:?\d{0,2}\s?(?:am|pm|AM|PM)?)` at the current
position; after the leading digits every component is optional, so greedy
matching needs no backtracking. -/
def matchPat5 (l : List Char) : Option (Nat × PGroups) :=
  match matchLitCI "at ".data l with
  | none => none
  | some r =>
    let (d1, r1) := takeUpTo2Digits r
    if d1.isEmpty then none
    else
      let r2 :=
        match r1 with
        | c :: cs => if c == ':' then cs else c :: cs
        | [] => []
      let (_, r3) := takeUpTo2Digits r2
      let r4 :=
        match r3 with
        | c :: cs => if isPySpace c then cs else c :: cs
        | [] => []
      let r5 :=
        match matchAlt ampmAlts r4 with
        | some (_, rr) => rr
        | none => r4
      some (l.length - r5.length, PGroups.one (r.take (r.length - r5.length)))

/-- The `reminder_patterns` list, in source order. -/
def reminderPatternList : List (List Char → Option (Nat × PGroups)) :=
  [matchPat1, matchPat2, matchPat3, matchPat4, matchPat5]

/-- Models `re.search` for one pattern: the match at the leftmost start
position wins; returns the start index, length, and groups. -/
def searchP (m : List Char → Option (Nat × PGroups)) : List Char → Option (Nat × Nat × PGroups)
  | [] =>
    match m [] with
    | some (len, g) => some (0, len, g)
    | none => none
  | l@(_ :: rest) =>
    match m l with
    | some (len, g) => some (0, len, g)
    | none =>
      match searchP m rest with
      | some (i, len, g) => some (i + 1, len, g)
      | none => none

/-- Python `int()` on a non-empty string of decimal digits. -/
def digitsToNat (ds : List Char) : Nat :=
  ds.foldl (fun n c => n * 10 + (c.toNat - 48)) 0

/-- The `time_expression` built from a match, per the group arity: two
groups yield the f-string `"{amount} {unit}s from now"`, one group yields
the group text itself. -/
def exprOfGroups : PGroups → List Char
  | .two ds u => (toString (digitsToNat ds)).data ++ " ".data ++ u ++ "s from now".data
  | .one g => g

/-- The pattern loop of `parse_time_from_message`: the first pattern (in
list order) whose `re.search` succeeds determines `time_expression`. -/
def findTimeExprAux : List (List Char → Option (Nat × PGroups)) → List Char → Option (List Char)
  | [], _ => none
  | p :: ps, l =>
    match searchP p l with
    | some (_, _, g) => some (exprOfGroups g)
    | none => findTimeExprAux ps l

/-- The `time_expression` found by the fixed-pattern path on the lowercased
message, if any. -/
def findTimeExpression (msgLower : List Char) : Option (List Char) :=
  findTimeExprAux reminderPatternList msgLower

/-- The `remove_phrases` list of `_extract_reminder_content`, in source
order. -/
def removePhrases : List (List Char) :=
  ["remind me to ".data, "remind me ".data, "reminder to ".data, "reminder ".data,
   "alert me to ".data, "alert me ".data, "notify me to ".data, "notify me ".data,
   "ping me to ".data, "ping me ".data, "tell me to ".data, "tell me ".data,
   "let me know to ".data, "let me know ".data, "don't forget to ".data,
   "remember to ".data]

/-- The phrase loop of `_extract_reminder_content`: for the first phrase (in
list order) contained in the lowercased message, drop everything up to and
including its leftmost occurrence; with no match the message is kept. -/
def stripLeadPhrase : List (List Char) → List Char → List Char → List Char
  | [], msg, _ => msg
  | p :: ps, msg, msgLower =>
    match findSubIdx p msgLower with
    | some idx => msg.drop (idx + p.length)
    | none => stripLeadPhrase ps msg msgLower

/-- One step list of `re.sub(pattern, '', content)`: remove every
non-overlapping leftmost match, scanning left to right. The fuel argument
(instantiated with `length + 1`) only serves termination; every pattern
match consumes at least one character, so the fuel never runs out. -/
def subRemoveAux (m : List Char → Option (Nat × PGroups)) : Nat → List Char → List Char
  | 0, l => l
  | fuel + 1, l =>
    match m l with
    | some (len, _) =>
      if len == 0 then
        match l with
        | [] => []
        | c :: cs => c :: subRemoveAux m fuel cs
      else subRemoveAux m fuel (l.drop len)
    | none =>
      match l with
      | [] => []
      | c :: cs => c :: subRemoveAux m fuel cs

/-- Models `re.sub(pattern, '', content, flags=re.IGNORECASE)`. -/
def subRemove (m : List Char → Option (Nat × PGroups)) (l : List Char) : List Char :=
  subRemoveAux m (l.length + 1) l

/-- The pattern-removal loop of `_extract_reminder_content`. -/
def removeTimePats (l : List Char) : List Char :=
  reminderPatternList.foldl (fun acc p => subRemove p acc) l

/-- Models Python `str.strip()` (both ends, ASCII whitespace). -/
def stripWs (l : List Char) : List Char :=
  ((l.dropWhile isPySpace).reverse.dropWhile isPySpace).reverse

/-- Helper for `collapseWs`: the flag records whether the previous emitted
character came from a whitespace run. -/
def collapseWsAux : Bool → List Char → List Char
  | _, [] => []
  | prevSpace, c :: rest =>
    if isPySpace c then
      if prevSpace then collapseWsAux true rest
      else ' ' :: collapseWsAux true rest
    else c :: collapseWsAux false rest

/-- Models `re.sub(r'\s+', ' ', content)`: every maximal whitespace run
becomes a single space. -/
def collapseWs (l : List Char) : List Char := collapseWsAux false l

/-- Models `TimeParser._extract_reminder_content`. -/
def extractReminderContent (msg : List Char) : List Char :=
  let msgLower := lowerL msg
  let content := stripLeadPhrase removePhrases msg msgLower
  let content := removeTimePats content
  let content := collapseWs (stripWs content)
  if content.length < 3 then msg else content

/-- Models `TimeParser.parse_time_from_message`; `dp` stands for the
external `dateparser.parse` (with the future-preferring settings) and `now`
for the `datetime.now()` reads. -/
def parseTimeFromMessage (dp : List Char → Option Nat) (now : Nat) (msg : List Char) :
    Option (Nat × List Char) :=
  let msgLower := lowerL msg
  match findTimeExpression msgLower with
  | some expr =>
    match dp expr with
    | none => none
    | some t => if t ≤ now then none else some (t, extractReminderContent msg)
  | none =>
    match dp msg with
    | some t => if now < t then some (t, extractReminderContent msg) else none
    | none => none

/-- The time resolved by `parse_time_from_message`'s chosen path: the fixed
pattern path's expression when one matches, otherwise the whole-message
fallback. -/
def resolvedTime (dp : List Char → Option Nat) (msg : List Char) : Option Nat :=
  match findTimeExpression (lowerL msg) with
  | some expr => dp expr
  | none => dp msg

/-- The `reminder_keywords` list of `detect_reminder_request`. -/
def reminderKeywords : List (List Char) :=
  ["remind me".data, "reminder".data, "remind us".data, "alert me".data,
   "notify me".data, "ping me".data, "tell me".data, "let me know".data,
   "don't forget".data, "remember to".data]

/-- The `time_indicators` list of `detect_reminder_request`. -/
def timeIndicators : List (List Char) :=
  ["in".data, "at".data, "tomorrow".data, "tonight".data, "later".data,
   "next week".data, "next month".data, "minutes".data, "hours".data,
   "days".data, "weeks".data]

/-- Models `TimeParser.detect_reminder_request`. -/
def detectReminderRequest (msg : List Char) : Bool :=
  let ml := lowerL msg
  let hasReminderKeyword := reminderKeywords.any (fun k => containsSub k ml)
  let hasTimeIndicator := timeIndicators.any (fun k => containsSub k ml)
  hasReminderKeyword || (hasTimeIndicator && decide ((splitWs msg).length < 20))

/-! ## Lemmas: trait bounds -/

theorem clampAdjust_le (v : Nat) (a : Int) : clampAdjust v a ≤ 100 := by
  unfold clampAdjust
  exact Int.toNat_le.mpr (max_le (by norm_num) (min_le_left _ _))

/-- All five trait values are at most 100. -/
def traitsInBounds (ts : Traits) : Prop :=
  ts.friendliness ≤ 100 ∧ ts.formality ≤ 100 ∧ ts.humor ≤ 100 ∧
    ts.verbosity ≤ 100 ∧ ts.helpfulness ≤ 100

theorem initTraits_inBounds : traitsInBounds initTraits := by
  refine ⟨?_, ?_, ?_, ?_, ?_⟩ <;> simp [initTraits]

theorem adjustTrait_inBounds {ts : Traits} (h : traitsInBounds ts) (t : Trait) (a : Int) :
    traitsInBounds (adjustTrait ts t a) := by
  obtain ⟨h1, h2, h3, h4, h5⟩ := h
  cases t <;> refine ⟨?_, ?_, ?_, ?_, ?_⟩ <;>
    simp [adjustTrait] <;> first | exact clampAdjust_le _ _ | assumption

theorem evolveVal_le {v : Nat} (h : v ≤ 100) : evolveVal v ≤ 100 := by
  unfold evolveVal
  split
  · exact clampAdjust_le _ _
  · split
    · exact clampAdjust_le _ _
    · exact h

theorem naturalEvolution_inBounds {s : PersonalityTracker} (tNow : Nat)
    (h : traitsInBounds s.personality_traits) :
    traitsInBounds (naturalEvolution s tNow).personality_traits := by
  obtain ⟨h1, h2, h3, h4, h5⟩ := h
  exact ⟨evolveVal_le h1, evolveVal_le h2, evolveVal_le h3, evolveVal_le h4, evolveVal_le h5⟩

theorem topicStep_traits (n : String) (adj : Traits → Traits) (ws : List String)
    (cl : List Char) (s : PersonalityTracker) :
    (topicStep n adj ws cl s).personality_traits =
      if containsAnyWord ws cl then adj s.personality_traits else s.personality_traits := by
  unfold topicStep
  split <;> rfl

theorem recordCore_inBounds {s : PersonalityTracker} (u : Nat) (c : List Char)
    (h : traitsInBounds s.personality_traits) :
    traitsInBounds (recordCore s u c).personality_traits := by
  simp only [recordCore, topicStep_traits]
  split_ifs <;>
    repeat
      first
        | exact h
        | apply adjustTrait_inBounds
        | exact adjustTrait_inBounds (adjustTrait_inBounds h _ _) _ _

theorem recordInteraction_inBounds {s : PersonalityTracker} (u : Nat) (c : List Char)
    (q : Bool) (tNow : Nat) (h : traitsInBounds s.personality_traits) :
    traitsInBounds (recordInteraction s u c q tNow).personality_traits := by
  simp only [recordInteraction]
  split
  · exact naturalEvolution_inBounds tNow (recordCore_inBounds u c h)
  · exact recordCore_inBounds u c h

theorem runCallsT_inBounds (tf : Nat → Nat) :
    ∀ (calls : List Call) (s : PersonalityTracker) (i : Nat),
      traitsInBounds s.personality_traits →
      traitsInBounds (runCallsT tf s i calls).personality_traits := by
  intro calls
  induction calls with
  | nil => intro s i h; exact h
  | cons hd tl ih =>
    intro s i h
    obtain ⟨uid, content, q⟩ := hd
    exact ih _ _ (recordInteraction_inBounds uid content q (tf i) h)

theorem traitsInBounds_get {ts : Traits} (h : traitsInBounds ts) (tr : Trait) :
    ts.get tr ≤ 100 := by
  obtain ⟨h1, h2, h3, h4, h5⟩ := h
  cases tr <;> assumption

/-- C1: starting from a freshly constructed `PersonalityTracker`, after any
prefix of any sequence of `record_interaction` calls, every trait value is
in [0,100]; and `_adjust_trait` clamps to the violated bound (never wraps):
a result that would land above 100 is 100 exactly, one that would land
below 0 is 0 exactly. -/
theorem trait_values_clamped_within_bounds :
    (∀ (t0 : Nat) (tf : Nat → Nat) (calls : List Call) (n : Nat) (tr : Trait),
        0 ≤ (runCallsT tf (PersonalityTracker.init t0) 0 (calls.take n)).personality_traits.get tr ∧
        (runCallsT tf (PersonalityTracker.init t0) 0 (calls.take n)).personality_traits.get tr ≤ 100) ∧
    (∀ (v : Nat) (a : Int), 100 < (v : Int) + a → clampAdjust v a = 100) ∧
    (∀ (v : Nat) (a : Int), (v : Int) + a < 0 → clampAdjust v a = 0) := by
  refine ⟨?_, ?_, ?_⟩
  · intro t0 tf calls n tr
    refine ⟨Nat.zero_le _, traitsInBounds_get ?_ tr⟩
    exact runCallsT_inBounds tf (calls.take n) _ 0 initTraits_inBounds
  · intro v a h
    unfold clampAdjust
    rw [min_eq_left h.le, max_eq_right (by norm_num)]
    rfl
  · intro v a h
    unfold clampAdjust
    rw [min_eq_right (by omega : (v : Int) + a ≤ 100), max_eq_left h.le]
    rfl

/-- Witness instantiating the clamping clauses of the previous theorem at
concrete values. -/
theorem trait_values_clamped_within_bounds_witness :
    clampAdjust 99 5 = 100 ∧ clampAdjust 3 (-10) = 0 :=
  ⟨trait_values_clamped_within_bounds.2.1 99 5 (by norm_num),
   trait_values_clamped_within_bounds.2.2 3 (-10) (by norm_num)⟩

/-! ## Lemmas: projections of the record-interaction steps -/

theorem topicStep_count (n : String) (adj : Traits → Traits) (ws : List String)
    (cl : List Char) (s : PersonalityTracker) :
    (topicStep n adj ws cl s).interaction_count = s.interaction_count := by
  unfold topicStep
  split <;> rfl

theorem topicStep_users (n : String) (adj : Traits → Traits) (ws : List String)
    (cl : List Char) (s : PersonalityTracker) :
    (topicStep n adj ws cl s).user_interactions = s.user_interactions := by
  unfold topicStep
  split <;> rfl

theorem topicStep_topics (n : String) (adj : Traits → Traits) (ws : List String)
    (cl : List Char) (s : PersonalityTracker) :
    (topicStep n adj ws cl s).topics =
      if containsAnyWord ws cl then bumpAssoc n s.topics else s.topics := by
  unfold topicStep
  split <;> rfl

theorem recordCore_count (s : PersonalityTracker) (u : Nat) (c : List Char) :
    (recordCore s u c).interaction_count = s.interaction_count + 1 := by
  simp only [recordCore, topicStep_count]

theorem recordCore_users (s : PersonalityTracker) (u : Nat) (c : List Char) :
    (recordCore s u c).user_interactions = bumpAssoc u s.user_interactions := by
  simp only [recordCore, topicStep_users]

/-! ## Claim C3: the natural-evolution pass -/

theorem evolveVal_high {v : Nat} (h1 : 60 < v) (h2 : v ≤ 100) : evolveVal v = v - 1 := by
  unfold evolveVal
  rw [if_pos h1]
  unfold clampAdjust
  rw [min_eq_right (by omega), max_eq_right (by omega)]
  omega

theorem evolveVal_low {v : Nat} (h : v < 40) : evolveVal v = v + 1 := by
  unfold evolveVal
  rw [if_neg (by omega), if_pos h]
  unfold clampAdjust
  rw [min_eq_right (by omega), max_eq_right (by omega)]
  omega

theorem evolveVal_mid {v : Nat} (h1 : 40 ≤ v) (h2 : v ≤ 60) : evolveVal v = v := by
  unfold evolveVal
  rw [if_neg (by omega), if_neg (by omega)]

/-- C3: `record_interaction` runs the natural-evolution pass exactly on the
calls whose incremented `interaction_count` is divisible by 10; in that pass
every trait strictly above 60 decreases by exactly 1, every trait strictly
below 40 increases by exactly 1, traits in [40,60] are unchanged, and a
single pass never moves a trait past the 40-60 band. The per-trait rule is
`evolveVal`, which `naturalEvolution` applies to all five traits. -/
theorem natural_evolution_every_tenth_call :
    (∀ (s : PersonalityTracker) (u : Nat) (c : List Char) (q : Bool) (tNow : Nat),
        (s.interaction_count + 1) % 10 = 0 →
        recordInteraction s u c q tNow = naturalEvolution (recordCore s u c) tNow) ∧
    (∀ (s : PersonalityTracker) (u : Nat) (c : List Char) (q : Bool) (tNow : Nat),
        (s.interaction_count + 1) % 10 ≠ 0 →
        recordInteraction s u c q tNow = recordCore s u c) ∧
    (∀ v : Nat, 60 < v → v ≤ 100 → evolveVal v = v - 1) ∧
    (∀ v : Nat, v < 40 → evolveVal v = v + 1) ∧
    (∀ v : Nat, 40 ≤ v → v ≤ 60 → evolveVal v = v) ∧
    (∀ v : Nat, 60 < v → v ≤ 100 → 60 ≤ evolveVal v) ∧
    (∀ v : Nat, v < 40 → evolveVal v ≤ 40) := by
  refine ⟨?_, ?_, ?_, ?_, ?_, ?_, ?_⟩
  · intro s u c q tNow h
    simp only [recordInteraction, recordCore_count]
    rw [if_pos h]
  · intro s u c q tNow h
    simp only [recordInteraction, recordCore_count]
    rw [if_neg h]
  · intro v h1 h2
    exact evolveVal_high h1 h2
  · intro v h
    exact evolveVal_low h
  · intro v h1 h2
    exact evolveVal_mid h1 h2
  · intro v h1 h2
    rw [evolveVal_high h1 h2]
    omega
  · intro v h
    rw [evolveVal_low h]
    omega

/-- Witness instantiating the previous theorem: a 10th call does run the
pass, a 1st call does not, and the per-trait rule at 61, 39 and 50. -/
theorem natural_evolution_every_tenth_call_witness :
    recordInteraction { PersonalityTracker.init 0 with interaction_count := 9 } 1 [] true 7 =
      naturalEvolution (recordCore { PersonalityTracker.init 0 with interaction_count := 9 } 1 []) 7 ∧
    recordInteraction (PersonalityTracker.init 0) 1 [] true 7 =
      recordCore (PersonalityTracker.init 0) 1 [] ∧
    evolveVal 61 = 61 - 1 ∧ evolveVal 39 = 39 + 1 ∧ evolveVal 50 = 50 ∧
    60 ≤ evolveVal 61 ∧ evolveVal 39 ≤ 40 :=
  ⟨natural_evolution_every_tenth_call.1 _ 1 [] true 7 (by decide),
   natural_evolution_every_tenth_call.2.1 _ 1 [] true 7 (by decide),
   natural_evolution_every_tenth_call.2.2.1 61 (by decide) (by decide),
   natural_evolution_every_tenth_call.2.2.2.1 39 (by decide),
   natural_evolution_every_tenth_call.2.2.2.2.1 50 (by decide) (by decide),
   natural_evolution_every_tenth_call.2.2.2.2.2.1 61 (by decide) (by decide),
   natural_evolution_every_tenth_call.2.2.2.2.2.2 39 (by decide)⟩

/-! ## Claim C9: interaction count equals the sum of per-user counts -/

/-- Sum of the per-user counters. -/
def sumUserCounts (s : PersonalityTracker) : Nat :=
  (s.user_interactions.map Prod.snd).sum

theorem bumpAssoc_sum {α : Type} [BEq α] (k : α) (l : List (α × Nat)) :
    ((bumpAssoc k l).map Prod.snd).sum = (l.map Prod.snd).sum + 1 := by
  induction l with
  | nil => simp [bumpAssoc]
  | cons hd tl ih =>
    obtain ⟨k', v⟩ := hd
    unfold bumpAssoc
    split
    · simp
      omega
    · simp [ih]
      omega

theorem recordInteraction_users (s : PersonalityTracker) (u : Nat) (c : List Char)
    (q : Bool) (tNow : Nat) :
    (recordInteraction s u c q tNow).user_interactions = bumpAssoc u s.user_interactions := by
  simp only [recordInteraction]
  split
  · simp only [naturalEvolution, recordCore_users]
  · exact recordCore_users s u c

theorem recordInteraction_count (s : PersonalityTracker) (u : Nat) (c : List Char)
    (q : Bool) (tNow : Nat) :
    (recordInteraction s u c q tNow).interaction_count = s.interaction_count + 1 := by
  simp only [recordInteraction]
  split
  · simp only [naturalEvolution, recordCore_count]
  · exact recordCore_count s u c

/-- C9: after any sequence of `record_interaction` calls on a fresh tracker,
`interaction_count` equals the sum over all user ids of the per-user counts
in `user_interactions`. -/
theorem interaction_count_eq_sum_user_counts (t0 : Nat) (tf : Nat → Nat)
    (calls : List Call) :
    sumUserCounts (runCallsT tf (PersonalityTracker.init t0) 0 calls) =
      (runCallsT tf (PersonalityTracker.init t0) 0 calls).interaction_count := by
  suffices h : ∀ (cs : List Call) (s : PersonalityTracker) (i : Nat),
      sumUserCounts s = s.interaction_count →
      sumUserCounts (runCallsT tf s i cs) = (runCallsT tf s i cs).interaction_count by
    exact h calls _ 0 rfl
  intro cs
  induction cs with
  | nil => intro s i h; exact h
  | cons hd tl ih =>
    intro s i h
    obtain ⟨uid, content, q⟩ := hd
    refine ih _ _ ?_
    unfold sumUserCounts
    rw [recordInteraction_users, recordInteraction_count, bumpAssoc_sum]
    exact congrArg (· + 1) h

/-! ## Claim C4: determinism of the personality engine

The embedding is a pure function of the call sequence, so determinism is
stated as a noninterference property: the observable state (counter, topic
counters, per-user counters, traits) and the derived prompt do not depend on
the construction timestamp or on the per-call `datetime.now()` reads, the
only inputs besides the `(user_id, content, is_question)` stream. -/

/-- Two tracker states that agree on everything except the two timestamp
fields. -/
def Agree (s1 s2 : PersonalityTracker) : Prop :=
  s1.interaction_count = s2.interaction_count ∧ s1.topics = s2.topics ∧
    s1.user_interactions = s2.user_interactions ∧
    s1.personality_traits = s2.personality_traits

theorem recordCore_agree {s1 s2 : PersonalityTracker} (u : Nat) (c : List Char)
    (h : Agree s1 s2) : Agree (recordCore s1 u c) (recordCore s2 u c) := by
  obtain ⟨h1, h2, h3, h4⟩ := h
  refine ⟨?_, ?_, ?_, ?_⟩
  · rw [recordCore_count, recordCore_count, h1]
  · simp only [recordCore, topicStep_topics]
    rw [h2]
  · rw [recordCore_users, recordCore_users, h3]
  · simp only [recordCore, topicStep_traits]
    rw [h4]

theorem naturalEvolution_agree {s1 s2 : PersonalityTracker} (t1 t2 : Nat)
    (h : Agree s1 s2) : Agree (naturalEvolution s1 t1) (naturalEvolution s2 t2) := by
  obtain ⟨h1, h2, h3, h4⟩ := h
  refine ⟨?_, ?_, ?_, ?_⟩ <;> simp only [naturalEvolution]
  · exact h1
  · exact h2
  · exact h3
  · rw [h4]

theorem recordInteraction_agree {s1 s2 : PersonalityTracker} (u : Nat) (c : List Char)
    (q : Bool) (t1 t2 : Nat) (h : Agree s1 s2) :
    Agree (recordInteraction s1 u c q t1) (recordInteraction s2 u c q t2) := by
  have hc := recordCore_agree u c h
  simp only [recordInteraction]
  by_cases hd : (recordCore s1 u c).interaction_count % 10 = 0
  · have hd2 : (recordCore s2 u c).interaction_count % 10 = 0 := by
      rw [← hc.1]; exact hd
    rw [if_pos hd, if_pos hd2]
    exact naturalEvolution_agree t1 t2 hc
  · have hd2 : ¬(recordCore s2 u c).interaction_count % 10 = 0 := by
      rw [← hc.1]; exact hd
    rw [if_neg hd, if_neg hd2]
    exact hc

theorem runCallsT_agree (tfa tfb : Nat → Nat) :
    ∀ (cs : List Call) (s1 s2 : PersonalityTracker) (i1 i2 : Nat), Agree s1 s2 →
      Agree (runCallsT tfa s1 i1 cs) (runCallsT tfb s2 i2 cs) := by
  intro cs
  induction cs with
  | nil => intro s1 s2 i1 i2 h; exact h
  | cons hd tl ih =>
    intro s1 s2 i1 i2 h
    obtain ⟨u, c, q⟩ := hd
    exact ih _ _ _ _ (recordInteraction_agree u c q _ _ h)

theorem getSystemPrompt_agree {s1 s2 : PersonalityTracker} (h : Agree s1 s2) :
    getSystemPrompt s1 = getSystemPrompt s2 := by
  obtain ⟨h1, h2, _, h4⟩ := h
  unfold getSystemPrompt
  rw [h1, h2, h4]

/-- C4: two fresh trackers fed the identical ordered sequence of
`(user_id, content, is_question)` calls end with identical trait mappings,
identical topic counters, and identical system-prompt output, whatever the
construction times and per-call clock reads are (the embedding has no other
input, hence no randomness affects these observables). -/
theorem personality_engine_deterministic (calls : List Call) (t0a t0b : Nat)
    (tfa tfb : Nat → Nat) :
    (runCallsT tfa (PersonalityTracker.init t0a) 0 calls).personality_traits =
      (runCallsT tfb (PersonalityTracker.init t0b) 0 calls).personality_traits ∧
    (runCallsT tfa (PersonalityTracker.init t0a) 0 calls).topics =
      (runCallsT tfb (PersonalityTracker.init t0b) 0 calls).topics ∧
    getSystemPrompt (runCallsT tfa (PersonalityTracker.init t0a) 0 calls) =
      getSystemPrompt (runCallsT tfb (PersonalityTracker.init t0b) 0 calls) := by
  have h := runCallsT_agree tfa tfb calls (PersonalityTracker.init t0a)
    (PersonalityTracker.init t0b) 0 0 ⟨rfl, rfl, rfl, rfl⟩
  exact ⟨h.2.2.2, h.2.1, getSystemPrompt_agree h⟩

/-! ## Claim C10: serialization round trip

The external pair `datetime.isoformat` / `datetime.fromisoformat` is
abstracted as functions `iso` / `fromIso` assumed mutually inverse on the
serialized side (a documented property of the Python standard library for
the `datetime.now()` values stored here). -/

/-- C10: for every tracker state reachable by `record_interaction` calls
from a fresh instance, `from_dict(to_dict(t))` agrees with `t` on
`interaction_count`, `topics`, `user_interactions`, `personality_traits`
and `start_time`. -/
theorem tracker_to_from_dict_roundtrip (S : Type) (iso : Nat → S) (fromIso : S → Nat)
    (hiso : ∀ n, fromIso (iso n) = n) (t0 t1 : Nat) (tf : Nat → Nat) (calls : List Call) :
    let t := runCallsT tf (PersonalityTracker.init t0) 0 calls
    let t' := PersonalityTracker.fromDict fromIso t1 (PersonalityTracker.toDict iso t)
    t'.interaction_count = t.interaction_count ∧ t'.topics = t.topics ∧
      t'.user_interactions = t.user_interactions ∧
      t'.personality_traits = t.personality_traits ∧ t'.start_time = t.start_time := by
  intro t t'
  exact ⟨rfl, rfl, rfl, rfl, hiso t.start_time⟩

/-- Witness instantiating the round trip with the identity serialization
pair and a one-call run. -/
theorem tracker_to_from_dict_roundtrip_witness :
    let t := runCallsT (fun _ => 3) (PersonalityTracker.init 2) 0 [(1, "hello code".data, true)]
    let t' := PersonalityTracker.fromDict (fun n : Nat => n) 5
      (PersonalityTracker.toDict (fun n : Nat => n) t)
    t'.interaction_count = t.interaction_count ∧ t'.topics = t.topics ∧
      t'.user_interactions = t.user_interactions ∧
      t'.personality_traits = t.personality_traits ∧ t'.start_time = t.start_time :=
  tracker_to_from_dict_roundtrip Nat (fun n => n) (fun n => n) (fun _ => rfl) 2 5
    (fun _ => 3) [(1, "hello code".data, true)]

/-! ## Scheduler lemmas -/

theorem hasKey_delKey (l : List (String × TaskInfo)) (k : String) :
    hasKey (delKey l k) k = false := by
  induction l with
  | nil => rfl
  | cons hd tl ih =>
    unfold delKey at *
    rw [List.filter_cons]
    by_cases h : (hd.1 == k) = true
    · rw [if_neg (by simp [h])]
      exact ih
    · have hb : (hd.1 == k) = false := Bool.not_eq_true _ ▸ h
      rw [if_pos (by simp [hb])]
      unfold hasKey at ih ⊢
      rw [List.any_cons, hb, Bool.false_or]
      exact ih

theorem hasJob_removeJob (l : List String) (k : String) :
    hasJob (removeJob l k) k = false := by
  induction l with
  | nil => rfl
  | cons hd tl ih =>
    unfold removeJob at *
    rw [List.filter_cons]
    by_cases h : (hd == k) = true
    · rw [if_neg (by simp [h])]
      exact ih
    · have hb : (hd == k) = false := Bool.not_eq_true _ ▸ h
      rw [if_pos (by simp [hb])]
      unfold hasJob at ih ⊢
      rw [List.any_cons, hb, Bool.false_or]
      exact ih

theorem hasKey_append_self (l : List (String × TaskInfo)) (k : String) (info : TaskInfo) :
    hasKey (l ++ [(k, info)]) k = true := by
  simp [hasKey, List.any_append]

theorem hasJob_append_self (l : List String) (k : String) :
    hasJob (l ++ [k]) k = true := by
  simp [hasJob, List.any_append]

/-! ## Claim C2: task retirement at firing -/

/-- Counterexample to C2: schedule a reminder and fire it with a delivery
callback that raises (`deliverOk = false`); contrary to the claim that the
task is retired from the live collection regardless of delivery outcome,
the task is still present in `scheduled_tasks` (only the underlying job was
retired), because the `del self.scheduled_tasks[task_id]` lines sit after
the `await send_function(...)` with no enclosing try/except. -/
theorem failed_delivery_leaves_phantom_task :
    hasKey (fireTask (scheduleReminder SmartScheduler.init 100 1 2 "stretch" none).1
        (scheduleReminder SmartScheduler.init 100 1 2 "stretch" none).2 false).scheduled_tasks
      (scheduleReminder SmartScheduler.init 100 1 2 "stretch" none).2 = true := by
  decide

/-- C2 (amended): when a reminder task fires, the task is removed from the
live collection exactly when the delivery callback returns successfully; a
raising callback propagates its exception past the removal lines, leaving
`scheduled_tasks` unchanged. The underlying one-shot job is retired from
the job store in either case. -/
theorem fire_retires_task_only_on_successful_delivery :
    (∀ (s : SmartScheduler) (tid : String),
        hasKey (fireTask s tid true).scheduled_tasks tid = false) ∧
    (∀ (s : SmartScheduler) (tid : String),
        (fireTask s tid false).scheduled_tasks = s.scheduled_tasks) ∧
    (∀ (s : SmartScheduler) (tid : String) (ok : Bool),
        hasJob (fireTask s tid ok).jobs tid = false) := by
  refine ⟨?_, ?_, ?_⟩
  · intro s tid
    by_cases h : hasKey s.scheduled_tasks tid = true
    · simp only [fireTask, if_true, h, if_pos]
      exact hasKey_delKey _ _
    · simp only [fireTask, if_true, h, if_neg, ite_false]
      exact Bool.not_eq_true _ ▸ h
  · intro s tid
    rfl
  · intro s tid ok
    unfold fireTask
    split <;> exact hasJob_removeJob _ _

/-! ## Claim C6: cancellation semantics -/

/-- C6: `cancel_task(task_id)` returns true exactly when a task with that
id is in the live collection and its job is still registered (i.e. it has
not fired); on success the task is removed. Unknown ids and already-fired
ids yield false (the source catches the `remove_job` exception and returns
a boolean, never raising). Scheduling then cancelling yields true exactly
once: the second cancel on the same id yields false. -/
theorem cancel_task_semantics :
    (∀ (s : SmartScheduler) (tid : String),
        ((cancelTask s tid).2 = true ↔
          hasKey s.scheduled_tasks tid = true ∧ hasJob s.jobs tid = true)) ∧
    (∀ (s : SmartScheduler) (tid : String), (cancelTask s tid).2 = true →
        hasKey (cancelTask s tid).1.scheduled_tasks tid = false) ∧
    (∀ (s : SmartScheduler) (fireAt ch uid : Nat) (msg : String) (orig : Option String),
        (cancelTask (scheduleReminder s fireAt ch uid msg orig).1
            (scheduleReminder s fireAt ch uid msg orig).2).2 = true ∧
        (cancelTask (cancelTask (scheduleReminder s fireAt ch uid msg orig).1
              (scheduleReminder s fireAt ch uid msg orig).2).1
            (scheduleReminder s fireAt ch uid msg orig).2).2 = false) := by
  have hiff : ∀ (s : SmartScheduler) (tid : String),
      (cancelTask s tid).2 = true ↔
        hasKey s.scheduled_tasks tid = true ∧ hasJob s.jobs tid = true := by
    intro s tid
    unfold cancelTask
    split
    · split
      · simp_all
      · simp_all
    · simp_all
  have hrem : ∀ (s : SmartScheduler) (tid : String), (cancelTask s tid).2 = true →
      hasKey (cancelTask s tid).1.scheduled_tasks tid = false := by
    intro s tid h
    by_cases h1 : hasKey s.scheduled_tasks tid = true
    · by_cases h2 : hasJob s.jobs tid = true
      · simp only [cancelTask, h1, h2, if_true]
        exact hasKey_delKey _ _
      · exact absurd h (by simp [cancelTask, h1, h2])
    · exact absurd h (by simp [cancelTask, h1])
  refine ⟨hiff, hrem, ?_⟩
  intro s fireAt ch uid msg orig
  have h1 : (cancelTask (scheduleReminder s fireAt ch uid msg orig).1
      (scheduleReminder s fireAt ch uid msg orig).2).2 = true :=
    (hiff _ _).mpr ⟨hasKey_append_self _ _ _, hasJob_append_self _ _⟩
  refine ⟨h1, ?_⟩
  rw [Bool.eq_false_iff]
  intro hcontra
  have h2 := ((hiff _ _).mp hcontra).1
  rw [hrem _ _ h1] at h2
  exact Bool.false_ne_true h2

/-- Witness: cancelling the single scheduled task removes it from the live
collection, discharging the success hypothesis at a concrete state. -/
theorem cancel_task_semantics_witness :
    hasKey (cancelTask (scheduleReminder SmartScheduler.init 50 1 2 "water" none).1
        (scheduleReminder SmartScheduler.init 50 1 2 "water" none).2).1.scheduled_tasks
      (scheduleReminder SmartScheduler.init 50 1 2 "water" none).2 = false :=
  cancel_task_semantics.2.1 _ _ (by decide)

/-! ## Claim C5: rejection behavior of parse_time_from_message -/

/-- C5: `parse_time_from_message` returns NONE exactly when the resolution
attempt of its chosen path (the `time_expression` of the first matching
fixed pattern, else the whole-message fallback) yields no time, or yields a
time at or before `now`; in particular any input resolving to a time at or
before `now` is rejected. -/
theorem parse_time_none_iff (dp : List Char → Option Nat) (now : Nat) (msg : List Char) :
    parseTimeFromMessage dp now msg = none ↔
      (resolvedTime dp msg = none ∨ ∃ t, resolvedTime dp msg = some t ∧ t ≤ now) := by
  unfold parseTimeFromMessage resolvedTime
  cases hfe : findTimeExpression (lowerL msg) with
  | some expr =>
    cases hdp : dp expr with
    | none => simp [hfe, hdp]
    | some t =>
      by_cases hle : t ≤ now
      · simp [hfe, hdp, hle]
      · simp [hfe, hdp, hle]
  | none =>
    cases hdp : dp msg with
    | none => simp [hfe, hdp]
    | some t =>
      by_cases hlt : now < t
      · simp [hfe, hdp, hlt]
      · simp [hfe, hdp, hlt]
        omega

/-- Witness: an input whose fixed-pattern expression resolves to a time at
or before `now` (here `tomorrow` resolving to 5 with `now = 10`) is
rejected. -/
theorem parse_time_none_iff_witness :
    parseTimeFromMessage
        (fun l => if l = "tomorrow".data then some 5 else none) 10
        "see you tomorrow".data = none :=
  (parse_time_none_iff (fun l => if l = "tomorrow".data then some 5 else none) 10
      "see you tomorrow".data).mpr
    (Or.inr ⟨5, by decide, by decide⟩)

/-! ## Claim C7: the reminder-request classifier -/

theorem isPrefixL_iff (n : List Char) : ∀ l, isPrefixL n l = true ↔ List.IsPrefix n l := by
  induction n with
  | nil =>
    intro l
    simp [isPrefixL, List.nil_prefix]
  | cons a as ih =>
    intro l
    cases l with
    | nil => simp [isPrefixL]
    | cons b bs =>
      simp [isPrefixL, List.cons_prefix_cons, Bool.and_eq_true, beq_iff_eq, ih bs]

theorem containsSub_iff (n : List Char) : ∀ l, containsSub n l = true ↔ List.IsInfix n l := by
  intro l
  induction l with
  | nil =>
    simp [containsSub, isPrefixL_iff, List.infix_nil, List.prefix_nil]
  | cons c rest ih =>
    simp [containsSub, Bool.or_eq_true, isPrefixL_iff, ih, List.infix_cons_iff]

/-- C7: `detect_reminder_request` returns true exactly when the lowercased
text contains one of the fixed reminder-keyword phrases as a substring, or
it contains one of the fixed time-indicator phrases and the whitespace-split
word count of the text is strictly below 20. -/
theorem detect_reminder_request_iff (msg : List Char) :
    detectReminderRequest msg = true ↔
      ((∃ k ∈ reminderKeywords, List.IsInfix k (lowerL msg)) ∨
        ((∃ k ∈ timeIndicators, List.IsInfix k (lowerL msg)) ∧
          (splitWs msg).length < 20)) := by
  unfold detectReminderRequest
  simp [List.any_eq_true, containsSub_iff, Bool.or_eq_true, Bool.and_eq_true,
    decide_eq_true_iff]

/-- Witness: a message carrying a reminder keyword is classified positively
through the left disjunct. -/
theorem detect_reminder_request_iff_witness :
    detectReminderRequest "remind me later".data = true :=
  (detect_reminder_request_iff "remind me later".data).mpr
    (Or.inl ⟨"remind me".data, by decide, [], " later".data, by decide⟩)

/-! ## Claim C8: the derived reminder body

The claim reads the phrase handling as excising only the lead-in phrase
itself. The source instead keeps `message[idx + len(phrase):]`: everything
up to and including the first matching phrase is dropped, including any text
before the phrase. `claimBody` renders the claim's reading, `amendedResidual`
the source's. -/

/-- The residual under the claim's reading: only the first matching lead-in
phrase is removed from the text, then time-pattern matches are removed and
whitespace is collapsed. -/
def claimResidual (msg : List Char) : List Char :=
  let msgLower := lowerL msg
  let content :=
    match removePhrases.find? (fun p => containsSub p msgLower) with
    | some p =>
      match findSubIdx p msgLower with
      | some idx => msg.take idx ++ msg.drop (idx + p.length)
      | none => msg
    | none => msg
  collapseWs (stripWs (removeTimePats content))

/-- The body under the claim's reading, with the under-3-characters
fallback. -/
def claimBody (msg : List Char) : List Char :=
  if (claimResidual msg).length < 3 then msg else claimResidual msg

/-- Counterexample to C8: on "please remind me to call mom tomorrow" the
source drops the leading "please " together with the phrase and returns
"call mom", while the claim's reading (remove only the phrase) yields
"please call mom". -/
theorem reminder_body_keeps_no_text_before_phrase :
    extractReminderContent "please remind me to call mom tomorrow".data ≠
        claimBody "please remind me to call mom tomorrow".data ∧
      extractReminderContent "please remind me to call mom tomorrow".data =
        "call mom".data ∧
      claimBody "please remind me to call mom tomorrow".data =
        "please call mom".data := by
  refine ⟨by decide, by decide, by decide⟩

/-- The residual under the source's actual phrase handling: everything up to
and including the first matching lead-in phrase is dropped, then
time-pattern matches are removed and whitespace is collapsed. -/
def amendedResidual (msg : List Char) : List Char :=
  let msgLower := lowerL msg
  let content :=
    match removePhrases.find? (fun p => containsSub p msgLower) with
    | some p =>
      match findSubIdx p msgLower with
      | some idx => msg.drop (idx + p.length)
      | none => msg
    | none => msg
  collapseWs (stripWs (removeTimePats content))

theorem findSubIdx_isSome (p : List Char) : ∀ l, (findSubIdx p l).isSome = containsSub p l := by
  intro l
  induction l with
  | nil =>
    unfold findSubIdx containsSub
    cases hb : isPrefixL p [] <;> simp [hb]
  | cons c rest ih =>
    unfold findSubIdx containsSub
    cases hb : isPrefixL p (c :: rest) <;> simp [hb, ih]

theorem stripLeadPhrase_eq (msg msgLower : List Char) : ∀ ps : List (List Char),
    stripLeadPhrase ps msg msgLower =
      (match ps.find? (fun p => containsSub p msgLower) with
        | some p =>
          match findSubIdx p msgLower with
          | some idx => msg.drop (idx + p.length)
          | none => msg
        | none => msg) := by
  intro ps
  induction ps with
  | nil => rfl
  | cons p ps ih =>
    unfold stripLeadPhrase
    cases hc : containsSub p msgLower with
    | false =>
      have hn : findSubIdx p msgLower = none := by
        have h2 := findSubIdx_isSome p msgLower
        rw [hc] at h2
        exact Option.not_isSome_iff_eq_none.mp (by simp [h2])
      rw [hn, List.find?_cons_of_neg _ (by simp [hc]), ih]
    | true =>
      obtain ⟨idx, hidx⟩ : ∃ idx, findSubIdx p msgLower = some idx := by
        have h2 := findSubIdx_isSome p msgLower
        rw [hc] at h2
        exact Option.isSome_iff_exists.mp h2
      rw [List.find?_cons_of_pos _ (by simp [hc])]
      simp [hidx]

/-- C8 (amended): when `extract` accepts, the body is the original text with
everything up to and including the first matching lead-in phrase dropped
(not just the phrase itself) and the time-pattern matches removed,
whitespace collapsed to single spaces; a residual shorter than 3 characters
falls back to the entire original message. -/
theorem extract_reminder_content_amended (msg : List Char) :
    extractReminderContent msg =
      if (amendedResidual msg).length < 3 then msg else amendedResidual msg := by
  simp only [extractReminderContent, amendedResidual]
  rw [stripLeadPhrase_eq msg (lowerL msg) removePhrases]

end Disclaude
